import Mathlib

/-!
Verification development for the Subagent Review Orchestrator of the
laravel-devcontainer-vue-starterkit repository
(devtools/claude-hooks/SubAgentReviewer).

The Python source is shallowly embedded: pure data classes become Lean
structures, JSON dictionaries become structures of optional fields or
association lists, file-system and subprocess effects become explicit
parameters, and every mutating method becomes a function returning the
updated value.  Timestamps (datetime.now().isoformat()) are passed in as
explicit string parameters.  Python ints are modelled as Int; the float
field total_cost_usd is modelled as Rat, which is sound because the
orchestrator only copies that value and never computes with it.
-/

namespace SubAgentReviewer

/-- Association-list model of a Python dict with string keys.  Lookup returns
the value at the first matching key; Python dicts have unique keys, preserve
insertion order, and assigning to an existing key updates the value in place,
which dictInsert mirrors. -/
def dictGet {α : Type} (k : String) : List (String × α) → Option α
  | [] => none
  | p :: rest => if p.1 = k then some p.2 else dictGet k rest

/-- Model of dict assignment d[k] = v: replace in place if the key exists,
otherwise append at the end (insertion order). -/
def dictInsert {α : Type} (k : String) (v : α) : List (String × α) → List (String × α)
  | [] => [(k, v)]
  | p :: rest => if p.1 = k then (k, v) :: rest else p :: dictInsert k v rest

/-!  ## Session data model (src/models/Session.py)  -/

/-- Embedding of dataclass AgentReview (Session.py): one review attempt.
decision: some true = passed, some false = blocked, none = in progress. -/
structure AgentReview where
  started_at : String
  ended_at : Option String
  decision : Option Bool
  input_tokens : Int
  output_tokens : Int
  total_cost_usd : Option Rat
deriving Repr, DecidableEq

/-- JSON-document form of an AgentReview, as read by AgentReview.from_dict.
Every field may be absent (data.get); for the nullable fields ended_at,
decision and total_cost_usd, Python's data.get collapses an absent key and an
explicit null into None, so a single Option level models both. -/
structure AgentReviewDoc where
  started_at : Option String
  ended_at : Option String
  decision : Option Bool
  input_tokens : Option Int
  output_tokens : Option Int
  total_cost_usd : Option Rat
deriving Repr, DecidableEq

/-- Embedding of AgentReview.from_dict. -/
def AgentReview.from_dict (d : AgentReviewDoc) : AgentReview :=
  { started_at := d.started_at.getD ""
    ended_at := d.ended_at
    decision := d.decision
    input_tokens := d.input_tokens.getD 0
    output_tokens := d.output_tokens.getD 0
    total_cost_usd := d.total_cost_usd }

/-- Embedding of AgentReview.to_dict: every field is written out. -/
def AgentReview.to_dict (r : AgentReview) : AgentReviewDoc :=
  { started_at := some r.started_at
    ended_at := r.ended_at
    decision := r.decision
    input_tokens := some r.input_tokens
    output_tokens := some r.output_tokens
    total_cost_usd := r.total_cost_usd }

/-- Embedding of property AgentReview.is_completed. -/
def AgentReview.is_completed (r : AgentReview) : Bool :=
  r.ended_at.isSome

/-- Embedding of property AgentReview.is_in_progress. -/
def AgentReview.is_in_progress (r : AgentReview) : Bool :=
  r.ended_at.isNone

/-- Embedding of dataclass TrackedAgent (Session.py). -/
structure TrackedAgent where
  agent_id : String
  agent_type : String
  started_at : String
  ended_at : Option String
  transcript_path : Option String
  reviews : List AgentReview
deriving Repr, DecidableEq

/-- JSON-document form of a TrackedAgent, as read by TrackedAgent.from_dict. -/
structure TrackedAgentDoc where
  agent_id : Option String
  agent_type : Option String
  started_at : Option String
  ended_at : Option String
  transcript_path : Option String
  reviews : Option (List AgentReviewDoc)
deriving Repr, DecidableEq

/-- Embedding of TrackedAgent.from_dict. -/
def TrackedAgent.from_dict (d : TrackedAgentDoc) : TrackedAgent :=
  { agent_id := d.agent_id.getD ""
    agent_type := d.agent_type.getD ""
    started_at := d.started_at.getD ""
    ended_at := d.ended_at
    transcript_path := d.transcript_path
    reviews := (d.reviews.getD []).map AgentReview.from_dict }

/-- Embedding of TrackedAgent.to_dict. -/
def TrackedAgent.to_dict (a : TrackedAgent) : TrackedAgentDoc :=
  { agent_id := some a.agent_id
    agent_type := some a.agent_type
    started_at := some a.started_at
    ended_at := a.ended_at
    transcript_path := a.transcript_path
    reviews := some (a.reviews.map AgentReview.to_dict) }

/-- Embedding of property TrackedAgent.completed_review_count:
number of reviews with a non-null ended_at. -/
def TrackedAgent.completed_review_count (a : TrackedAgent) : Nat :=
  (a.reviews.filter AgentReview.is_completed).length

/-- Embedding of TrackedAgent.start_review: appends a fresh in-progress
review.  The datetime.now() timestamp is the explicit parameter now. -/
def TrackedAgent.start_review (a : TrackedAgent) (now : String) :
    TrackedAgent × AgentReview :=
  let r : AgentReview :=
    { started_at := now
      ended_at := none
      decision := none
      input_tokens := 0
      output_tokens := 0
      total_cost_usd := none }
  ({ a with reviews := a.reviews ++ [r] }, r)

/-- Mutation of the last element of a list, returning the updated list and
the updated element; models Python's self.reviews[-1] in-place update. -/
def endLastReview (upd : AgentReview → AgentReview) :
    List AgentReview → List AgentReview × Option AgentReview
  | [] => ([], none)
  | [r] => ([upd r], some (upd r))
  | r :: s :: rest =>
    let p := endLastReview upd (s :: rest)
    (r :: p.1, p.2)

/-- Embedding of TrackedAgent.end_review: finalizes the latest review with a
decision and usage stats; returns none when no reviews exist. -/
def TrackedAgent.end_review (a : TrackedAgent) (passed : Bool)
    (input_tokens output_tokens : Int) (total_cost_usd : Option Rat)
    (now : String) : TrackedAgent × Option AgentReview :=
  let upd : AgentReview → AgentReview := fun r =>
    { r with
      ended_at := some now
      decision := some passed
      input_tokens := input_tokens
      output_tokens := output_tokens
      total_cost_usd := total_cost_usd }
  let p := endLastReview upd a.reviews
  ({ a with reviews := p.1 }, p.2)

/-- Embedding of dataclass Session (Session.py). -/
structure Session where
  session_id : String
  started_at : String
  transcript_path : String
  git_branch : Option String
  git_commit : Option String
  agents : List (String × TrackedAgent)
deriving Repr, DecidableEq

/-- JSON-document form of a Session, as read by Session.from_dict. -/
structure SessionDoc where
  session_id : Option String
  started_at : Option String
  transcript_path : Option String
  git_branch : Option String
  git_commit : Option String
  agents : Option (List (String × TrackedAgentDoc))
deriving Repr, DecidableEq

/-- Embedding of Session.from_dict. -/
def Session.from_dict (d : SessionDoc) : Session :=
  { session_id := d.session_id.getD ""
    started_at := d.started_at.getD ""
    transcript_path := d.transcript_path.getD ""
    git_branch := d.git_branch
    git_commit := d.git_commit
    agents := (d.agents.getD []).map (fun p => (p.1, TrackedAgent.from_dict p.2)) }

/-- Embedding of Session.to_dict. -/
def Session.to_dict (s : Session) : SessionDoc :=
  { session_id := some s.session_id
    started_at := some s.started_at
    transcript_path := some s.transcript_path
    git_branch := s.git_branch
    git_commit := s.git_commit
    agents := some (s.agents.map (fun p => (p.1, TrackedAgent.to_dict p.2))) }

/-- Embedding of Session.add_agent: if the agent id already exists, the
existing record is returned unchanged (idempotent upsert); otherwise a fresh
TrackedAgent is created and inserted. -/
def Session.add_agent (s : Session) (agent_id agent_type : String)
    (now : String) : Session × TrackedAgent :=
  match dictGet agent_id s.agents with
  | some a => (s, a)
  | none =>
    let a : TrackedAgent :=
      { agent_id := agent_id
        agent_type := agent_type
        started_at := now
        ended_at := none
        transcript_path := none
        reviews := [] }
    ({ s with agents := dictInsert agent_id a s.agents }, a)

/-- Embedding of Session.end_agent: sets ended_at and transcript_path on the
matching agent; returns none when the agent is unknown. -/
def Session.end_agent (s : Session) (agent_id : String)
    (transcript_path : Option String) (now : String) :
    Session × Option TrackedAgent :=
  match dictGet agent_id s.agents with
  | none => (s, none)
  | some a =>
    let a2 := { a with ended_at := some now, transcript_path := transcript_path }
    ({ s with agents := dictInsert agent_id a2 s.agents }, some a2)

/-- Embedding of Session.start_agent_review. -/
def Session.start_agent_review (s : Session) (agent_id : String)
    (now : String) : Session × Option AgentReview :=
  match dictGet agent_id s.agents with
  | none => (s, none)
  | some a =>
    let p := a.start_review now
    ({ s with agents := dictInsert agent_id p.1 s.agents }, some p.2)

/-- Embedding of Session.end_agent_review. -/
def Session.end_agent_review (s : Session) (agent_id : String) (passed : Bool)
    (input_tokens output_tokens : Int) (total_cost_usd : Option Rat)
    (now : String) : Session × Option AgentReview :=
  match dictGet agent_id s.agents with
  | none => (s, none)
  | some a =>
    let p := a.end_review passed input_tokens output_tokens total_cost_usd now
    ({ s with agents := dictInsert agent_id p.1 s.agents }, p.2)

/-!  ## Session storage (src/services/storage/SessionStorageService.py)

The on-disk store (one session.json document per session directory) is
modelled as an association list from session id to the serialized SessionDoc.
load_session deserializes via Session.from_dict; save_session serializes via
Session.to_dict and rewrites the whole document.  Directory provisioning and
I/O failure of individual writes have no bearing on the claims and are not
modelled as separate failure states.  -/

/-- On-disk sessions directory: session id to stored JSON document. -/
abbrev StorageState : Type := List (String × SessionDoc)

/-- Embedding of SessionStorageService.load_session: none when the session
file does not exist, otherwise the deserialized Session. -/
def load_session (st : StorageState) (session_id : String) : Option Session :=
  (dictGet session_id st).map Session.from_dict

/-- Embedding of SessionStorageService.save_session: rewrite the whole
document for session.session_id. -/
def save_session (st : StorageState) (s : Session) : StorageState :=
  dictInsert s.session_id s.to_dict st

/-- Embedding of SessionStorageService.get_or_create_session. -/
def get_or_create_session (st : StorageState) (session_id : String)
    (transcript_path : String) (git_branch git_commit : Option String)
    (now : String) : Session :=
  match load_session st session_id with
  | some s => s
  | none =>
    { session_id := session_id
      started_at := now
      transcript_path := transcript_path
      git_branch := git_branch
      git_commit := git_commit
      agents := [] }

/-- Embedding of SessionStorageService.track_agent_start: load-or-create the
session, upsert the agent, persist, return the session.  The create_directory
flag only provisions an on-disk log directory and is not modelled. -/
def track_agent_start (st : StorageState) (session_id agent_id agent_type : String)
    (transcript_path : String) (git_branch git_commit : Option String)
    (now : String) : StorageState × Session :=
  let s := get_or_create_session st session_id transcript_path git_branch git_commit now
  let p := s.add_agent agent_id agent_type now
  (save_session st p.1, p.1)

/-- Embedding of SessionStorageService.track_agent_stop: load the session
(fail closed with none when unknown), mark the agent ended, persist only when
the agent was found. -/
def track_agent_stop (st : StorageState) (session_id agent_id : String)
    (agent_transcript_path : Option String) (now : String) :
    StorageState × Option Session × Option TrackedAgent :=
  match load_session st session_id with
  | none => (st, none, none)
  | some s =>
    let p := s.end_agent agent_id agent_transcript_path now
    match p.2 with
    | some a => (save_session st p.1, some p.1, some a)
    | none => (st, some p.1, none)

/-- Embedding of SessionStorageService.start_agent_review: append a fresh
in-progress review to the agent and persist; none when session or agent is
unknown (no persist in that case). -/
def start_agent_review (st : StorageState) (session_id agent_id : String)
    (now : String) : StorageState × Option AgentReview :=
  match load_session st session_id with
  | none => (st, none)
  | some s =>
    let p := s.start_agent_review agent_id now
    match p.2 with
    | some r => (save_session st p.1, some r)
    | none => (st, none)

/-- Embedding of SessionStorageService.end_agent_review: finalize the latest
review of the agent and persist; none when session or agent is unknown or the
agent has no reviews (no persist in those cases). -/
def end_agent_review (st : StorageState) (session_id agent_id : String)
    (passed : Bool) (input_tokens output_tokens : Int)
    (total_cost_usd : Option Rat) (now : String) :
    StorageState × Option AgentReview :=
  match load_session st session_id with
  | none => (st, none)
  | some s =>
    let p := s.end_agent_review agent_id passed input_tokens output_tokens total_cost_usd now
    match p.2 with
    | some r => (save_session st p.1, some r)
    | none => (st, none)

/-!  ## Configuration (src/models/Config.py)  -/

/-- Embedding of dataclass ReviewerSettings. -/
structure ReviewerSettings where
  skip_if_no_file_changes : Bool
  max_review_cycles : Int
deriving Repr, DecidableEq

/-- Embedding of dataclass ReviewerConfig (output_dir only affects where
files land on disk and is not modelled). -/
structure ReviewerConfig where
  agents_to_review : List String
  settings : ReviewerSettings
deriving Repr, DecidableEq

/-- Embedding of ReviewerConfig.should_review_agent. -/
def ReviewerConfig.should_review_agent (c : ReviewerConfig)
    (agent_type : String) : Bool :=
  c.agents_to_review.contains agent_type

/-!  ## Transcript model (src/models/transcript)  -/

/-- Embedding of dataclass ToolCall (ToolCall.py).  The tool input mapping is
modelled as a string-to-string association list: the parser only ever reads
the file_path and relative_path keys (expected to hold path strings) and
otherwise copies the mapping verbatim into the FileChange record. -/
structure ToolCall where
  id : String
  name : String
  input : List (String × String)
deriving Repr, DecidableEq

/-- Embedding of ToolCall.FILE_MODIFYING_TOOLS. -/
def FILE_MODIFYING_TOOLS : List String :=
  ["Edit", "Write", "MultiEdit",
   "mcp__serena__replace_symbol_body",
   "mcp__serena__insert_after_symbol",
   "mcp__serena__insert_before_symbol",
   "mcp__serena__rename_symbol"]

/-- Embedding of property ToolCall.is_file_modifying. -/
def ToolCall.is_file_modifying (tc : ToolCall) : Bool :=
  FILE_MODIFYING_TOOLS.contains tc.name

/-- Embedding of property ToolCall.file_path: try file_path first, then
relative_path, else None. -/
def ToolCall.file_path (tc : ToolCall) : Option String :=
  match dictGet "file_path" tc.input with
  | some v => some v
  | none => dictGet "relative_path" tc.input

/-- Embedding of dataclass TranscriptEntry (TranscriptEntry.py), restricted
to the fields the orchestrator consumes: the entry type and parent link
(which classify the initial prompt) and the tool calls already extracted from
the tool_use content blocks. -/
structure TranscriptEntry where
  uuid : String
  parent_uuid : Option String
  entry_type : String
  tool_calls : List ToolCall
deriving Repr, DecidableEq

/-- Embedding of property TranscriptEntry.file_modifying_tool_calls. -/
def TranscriptEntry.file_modifying_tool_calls (e : TranscriptEntry) :
    List ToolCall :=
  e.tool_calls.filter ToolCall.is_file_modifying

/-- Embedding of enum FileChangeAction (FileChange.py). -/
inductive FileChangeAction where
  | CREATED
  | EDITED
  | UNKNOWN
deriving Repr, DecidableEq

/-- Embedding of dataclass FileChange (FileChange.py), the fields recorded by
the parser. -/
structure FileChange where
  path : String
  action : FileChangeAction
  tool_name : String
  tool_call_id : String
  tool_input : List (String × String)
deriving Repr, DecidableEq

/-!  ## Transcript parser (src/services/transcript/TranscriptParserService.py)  -/

/-- Python's str.startswith: the prefix's characters are an initial segment
of the string's characters. -/
def str_startswith (s pre : String) : Bool :=
  pre.data.isPrefixOf s.data

/-- Embedding of TranscriptParserService._determine_action. -/
def determine_action (tool_name : String) : FileChangeAction :=
  if tool_name = "Write" then FileChangeAction.CREATED
  else if tool_name = "Edit" ∨ tool_name = "MultiEdit" then FileChangeAction.EDITED
  else if str_startswith tool_name "mcp__serena__" then FileChangeAction.EDITED
  else FileChangeAction.UNKNOWN

/-- Inner loop of TranscriptParserService._extract_file_changes over the
in-order stream of file-modifying tool calls, carrying the seen_paths set.
Python's falsy test (if not path) skips both a missing path and an empty
string. -/
def extract_file_changes_aux : List ToolCall → List String → List FileChange
  | [], _ => []
  | tc :: rest, seen =>
    match tc.file_path with
    | none => extract_file_changes_aux rest seen
    | some p =>
      if p = "" then extract_file_changes_aux rest seen
      else if seen.contains p then extract_file_changes_aux rest seen
      else
        { path := p
          action := determine_action tc.name
          tool_name := tc.name
          tool_call_id := tc.id
          tool_input := tc.input } :: extract_file_changes_aux rest (p :: seen)

/-- Embedding of TranscriptParserService._extract_file_changes: scan every
entry's file-modifying tool calls in order, dedup by path, first occurrence
wins. -/
def extract_file_changes (entries : List TranscriptEntry) : List FileChange :=
  extract_file_changes_aux
    (entries.flatMap TranscriptEntry.file_modifying_tool_calls) []

/-- Embedding of property TranscriptAnalysis.unique_file_paths
(TranscriptAnalysis.py). -/
def unique_file_paths_aux : List FileChange → List String → List String
  | [], _ => []
  | fc :: rest, seen =>
    if seen.contains fc.path then unique_file_paths_aux rest seen
    else fc.path :: unique_file_paths_aux rest (fc.path :: seen)

/-- Deduplicated file paths of an analysis, in first-seen order. -/
def unique_file_paths (file_changes : List FileChange) : List String :=
  unique_file_paths_aux file_changes []

/-!  ## Review client (src/services/review/ReviewerService.py)  -/

/-- Embedding of dataclass ReviewResult. -/
structure ReviewResult where
  passed : Bool
  feedback : String
  input_tokens : Int
  output_tokens : Int
  total_tokens : Int
  total_cost_usd : Option Rat
deriving Repr, DecidableEq

/-- JSON object printed by the external reviewer, as consumed by
ReviewResult.from_dict: every field may be absent. -/
structure ReviewResultDoc where
  passed : Option Bool
  feedback : Option String
  input_tokens : Option Int
  output_tokens : Option Int
  total_tokens : Option Int
  total_cost_usd : Option Rat
deriving Repr, DecidableEq

/-- Embedding of ReviewResult.from_dict: a missing passed key defaults to
True, a missing feedback key to the empty string. -/
def ReviewResult.from_dict (d : ReviewResultDoc) : ReviewResult :=
  { passed := d.passed.getD true
    feedback := d.feedback.getD ""
    input_tokens := d.input_tokens.getD 0
    output_tokens := d.output_tokens.getD 0
    total_tokens := d.total_tokens.getD 0
    total_cost_usd := d.total_cost_usd }

/-- Embedding of classmethod ReviewResult.error: an error result allows the
agent to proceed, with the failure reason recorded as feedback. -/
def ReviewResult.error_result (message : String) : ReviewResult :=
  { passed := true
    feedback := "Review error: " ++ message
    input_tokens := 0
    output_tokens := 0
    total_tokens := 0
    total_cost_usd := none }

/-- Outcome of the subprocess.run call on the external reviewer.  timeout
models subprocess.TimeoutExpired, exn models any other raised exception, and
completed carries the process's stdout, stderr and return code together with
the result of attempting json.loads on stdout (none when json.loads raises
JSONDecodeError; JSON parsing is a standard-library call outside this
repository, so its verdict on the stdout text is carried as data). -/
inductive SubprocessOutcome where
  | timeout
  | exn (message : String)
  | completed (stdout_json : Option ReviewResultDoc)
      (stdout stderr : String) (returncode : Int)
deriving Repr, DecidableEq

/-- Embedding of ReviewerService.review.  files and the tool-existence flag
gate the short-circuit branches; the subprocess outcome is an explicit
parameter.  The original_task string only contributes to the subprocess
command line (whose outcome is already a parameter) and is omitted. -/
def ReviewerService.review (files : List String) (tool_path_exists : Bool)
    (timeout_seconds : Int) (outcome : SubprocessOutcome) : ReviewResult :=
  if files = [] then
    { passed := true, feedback := "", input_tokens := 0, output_tokens := 0
      total_tokens := 0, total_cost_usd := none }
  else if ¬ tool_path_exists then
    ReviewResult.error_result "Code reviewer not found"
  else
    match outcome with
    | SubprocessOutcome.timeout =>
      ReviewResult.error_result
        ("Review timed out after " ++ toString timeout_seconds ++ "s")
    | SubprocessOutcome.exn message =>
      ReviewResult.error_result message
    | SubprocessOutcome.completed (some d) _ _ _ =>
      ReviewResult.from_dict d
    | SubprocessOutcome.completed none stdout stderr returncode =>
      if returncode = 0 then
        { passed := true, feedback := "", input_tokens := 0, output_tokens := 0
          total_tokens := 0, total_cost_usd := none }
      else
        let feedback :=
          if stderr ≠ "" then stderr
          else if stdout ≠ "" then stdout
          else "Review failed (unknown error)"
        { passed := false, feedback := feedback, input_tokens := 0
          output_tokens := 0, total_tokens := 0, total_cost_usd := none }

/-!  ## Hook input (src/models/HookInput.py)  -/

/-- Raw JSON object handed to the hook on stdin, restricted to the fields
HookInput.from_dict consumes; every field may be absent.  This represents
only the well-typed case, in which every consumed field has the type
from_dict expects; stdin whose JSON value is not such an object is modelled
separately by StdinOutcome.mistyped, because HookInput.from_dict raises on it
(data.get on a JSON array raises AttributeError, Path of a non-string raises
TypeError) and that exception is not caught anywhere. -/
structure RawHookInput where
  session_id : Option String
  transcript_path : Option String
  hook_event_name : Option String
  agent_id : Option String
  agent_type : Option String
  agent_transcript_path : Option String
  stop_hook_active : Option Bool
deriving Repr, DecidableEq

/-- Embedding of dataclass HookInput (cwd, permission_mode and raw_data are
never consumed by the orchestrator's decision logic). -/
structure HookInput where
  session_id : String
  transcript_path : Option String
  hook_event_name : String
  agent_id : Option String
  agent_type : Option String
  agent_transcript_path : Option String
  stop_hook_active : Bool
deriving Repr, DecidableEq

/-- Embedding of HookInput.from_dict.  Python treats an empty path string as
falsy and leaves the Path field None in that case. -/
def HookInput.from_dict (d : RawHookInput) : HookInput :=
  { session_id := d.session_id.getD "unknown"
    transcript_path :=
      match d.transcript_path with
      | some p => if p = "" then none else some p
      | none => none
    hook_event_name := d.hook_event_name.getD "unknown"
    agent_id := d.agent_id
    agent_type := d.agent_type
    agent_transcript_path :=
      match d.agent_transcript_path with
      | some p => if p = "" then none else some p
      | none => none
    stop_hook_active := d.stop_hook_active.getD false }

/-- Embedding of property HookInput.is_stop_event. -/
def HookInput.is_stop_event (h : HookInput) : Bool :=
  h.hook_event_name = "SubagentStop"

/-- Embedding of property HookInput.is_start_event. -/
def HookInput.is_start_event (h : HookInput) : Bool :=
  h.hook_event_name = "SubagentStart"

/-!  ## Orchestrator (main.py)  -/

/-- Embedding of class HookResult (main.py). -/
structure HookResult where
  decision : String
  reason : String
  should_block : Bool
deriving Repr, DecidableEq

/-- Embedding of SubagentReviewerHook._allow. -/
def allowResult (reason : String) : HookResult :=
  { decision := "allow", reason := reason, should_block := false }

/-- Embedding of SubagentReviewerHook._block. -/
def blockResult (reason : String) : HookResult :=
  { decision := "block", reason := reason, should_block := true }

/-- Environment of one hook invocation: the pieces of the outside world the
orchestrator consults, made explicit.  fs_exists is Path.exists on the host
file system; entries_at gives the parsed entries of the transcript file at a
path (TranscriptParserService._read_entries, only consulted after the
existence check); agent_dir_found is whether the per-agent log directory
resolves (create_review_dir raises ValueError when it does not);
reviewer_outcome is what the reviewer subprocess did. -/
structure HookEnv where
  config : ReviewerConfig
  git_branch : Option String
  git_commit : Option String
  fs_exists : String → Bool
  entries_at : String → List TranscriptEntry
  reviewer_tool_exists : Bool
  reviewer_timeout_seconds : Int
  reviewer_outcome : SubprocessOutcome
  agent_dir_found : Bool
  t_stop : String
  t_review_start : String
  t_review_end : String

/-- Embedding of SubagentReviewerHook._handle_start. -/
def handle_start (env : HookEnv) (st : StorageState) (inp : HookInput) :
    HookResult × StorageState :=
  match inp.agent_id with
  | none => (allowResult "No agent_id in SubagentStart", st)
  | some aid =>
    match inp.agent_type with
    | none => (allowResult "No agent_type in SubagentStart", st)
    | some ty =>
      let p := track_agent_start st inp.session_id aid ty
        (inp.transcript_path.getD "") env.git_branch env.git_commit env.t_stop
      (allowResult "Agent start tracked", p.1)

/-- Embedding of SubagentReviewerHook._handle_stop.  An error value models an
exception escaping the handler (create_review_dir's ValueError when the agent
directory is missing), carrying the storage state at the raise point; run
catches it and resolves to allow. -/
def handle_stop (env : HookEnv) (st : StorageState) (inp : HookInput) :
    Except StorageState (HookResult × StorageState) :=
  match inp.agent_id with
  | none => Except.ok (allowResult "No agent_id in SubagentStop", st)
  | some aid =>
    let stop := track_agent_stop st inp.session_id aid inp.agent_transcript_path env.t_stop
    let st1 := stop.1
    match stop.2.2 with
    | none =>
      Except.ok
        (allowResult "Agent not tracked (probably started before hook was installed)", st1)
    | some agent =>
      if ¬ env.config.should_review_agent agent.agent_type then
        Except.ok (allowResult ("Agent type '" ++ agent.agent_type ++
          "' not configured for review"), st1)
      else
        let review_count := agent.completed_review_count
        let max_cycles := env.config.settings.max_review_cycles
        if inp.stop_hook_active ∧ (review_count : Int) ≥ max_cycles then
          Except.ok (allowResult ("Max review cycles reached (" ++
            toString review_count ++ "/" ++ toString max_cycles ++ ")"), st1)
        else
          match inp.agent_transcript_path with
          | none => Except.ok (allowResult "Agent transcript not found", st1)
          | some tp =>
            if ¬ env.fs_exists tp then
              Except.ok (allowResult "Agent transcript not found", st1)
            else
              let file_changes := extract_file_changes (env.entries_at tp)
              if file_changes.isEmpty then
                Except.ok (allowResult "No file changes", st1)
              else if env.config.settings.skip_if_no_file_changes ∧ file_changes.isEmpty then
                Except.ok (allowResult "No file changes (skip_if_no_file_changes=true)", st1)
              else if ¬ env.agent_dir_found then
                Except.error st1
              else
                let st2 := (start_agent_review st1 inp.session_id aid env.t_review_start).1
                let files := unique_file_paths file_changes
                let rr := ReviewerService.review files env.reviewer_tool_exists
                  env.reviewer_timeout_seconds env.reviewer_outcome
                let st3 := (end_agent_review st2 inp.session_id aid rr.passed
                  rr.input_tokens rr.output_tokens rr.total_cost_usd env.t_review_end).1
                if rr.passed then
                  Except.ok (allowResult "Review passed", st3)
                else
                  Except.ok (blockResult rr.feedback, st3)

/-- Embedding of SubagentReviewerHook.run: dispatch on the event name with
the catch-all exception handler, emit the block payload only when the result
blocks, and always return exit code 0. -/
def run_hook (env : HookEnv) (st : StorageState) (raw : RawHookInput) :
    Int × Option HookResult × StorageState :=
  let inp := HookInput.from_dict raw
  let rs : HookResult × StorageState :=
    if inp.is_start_event then handle_start env st inp
    else if inp.is_stop_event then
      match handle_stop env st inp with
      | Except.ok r => r
      | Except.error st2 => (allowResult "Error during processing", st2)
    else (allowResult ("Unknown event: " ++ inp.hook_event_name), st)
  let payload := if rs.1.should_block then some rs.1 else none
  (0, payload, rs.2)

/-- Outcome of reading and parsing stdin in main (main.py).
not_json: json.load raises JSONDecodeError, main returns 1.
mistyped: json.load succeeds but the value is not an object with well-typed
hook fields, so HookInput.from_dict raises (AttributeError on a JSON array,
TypeError from Path on a non-string path field) before the try block in run;
nothing catches it, the interpreter dies with a traceback, and CPython exits
with status 1 and no payload on stdout.
parsed: a well-typed object, on which from_dict succeeds. -/
inductive StdinOutcome where
  | not_json
  | mistyped
  | parsed (raw : RawHookInput)
deriving Repr, DecidableEq

/-- Embedding of main (main.py): stdin that fails json.load returns exit code
1 before the hook runs; stdin that parses but makes HookInput.from_dict raise
kills the process with an uncaught exception (exit status 1, no payload, the
hook logic never runs); otherwise the hook's run result (always 0). -/
def main_exit (env : HookEnv) (st : StorageState) :
    StdinOutcome → Int × Option HookResult × StorageState
  | StdinOutcome.not_json => (1, none, st)
  | StdinOutcome.mistyped => (1, none, st)
  | StdinOutcome.parsed raw => run_hook env st raw

/-!  ## Helper lemmas  -/

theorem dictGet_dictInsert_self {α : Type} (k : String) (v : α)
    (l : List (String × α)) : dictGet k (dictInsert k v l) = some v := by
  induction l with
  | nil => simp [dictGet, dictInsert]
  | cons p rest ih =>
    by_cases h : p.1 = k
    · simp [dictGet, dictInsert, h]
    · simp [dictGet, dictInsert, h, ih]

theorem mem_dictInsert {α : Type} {k : String} {v : α}
    {l : List (String × α)} {q : String × α}
    (hq : q ∈ dictInsert k v l) : q = (k, v) ∨ q ∈ l := by
  induction l with
  | nil => simpa [dictInsert] using hq
  | cons p rest ih =>
    by_cases h : p.1 = k
    · simp only [dictInsert, h, if_pos] at hq
      rcases List.mem_cons.mp hq with h1 | h1
      · exact Or.inl h1
      · exact Or.inr (List.mem_cons_of_mem _ h1)
    · simp only [dictInsert, h, if_neg, not_false_iff] at hq
      rcases List.mem_cons.mp hq with h1 | h1
      · exact Or.inr (h1 ▸ List.mem_cons_self _ _)
      · rcases ih h1 with h2 | h2
        · exact Or.inl h2
        · exact Or.inr (List.mem_cons_of_mem _ h2)

theorem dictGet_mem {α : Type} {k : String} {v : α} {l : List (String × α)}
    (h : dictGet k l = some v) : (k, v) ∈ l := by
  induction l with
  | nil => simp [dictGet] at h
  | cons p rest ih =>
    by_cases hk : p.1 = k
    · simp only [dictGet, hk, if_pos, Option.some.injEq] at h
      subst h
      have : p = (k, p.2) := by
        cases p
        simp_all
      exact this ▸ List.mem_cons_self _ _
    · simp only [dictGet, hk, if_neg, not_false_iff] at h
      exact List.mem_cons_of_mem _ (ih h)

theorem review_roundtrip (r : AgentReview) :
    AgentReview.from_dict r.to_dict = r := rfl

theorem agent_roundtrip (a : TrackedAgent) :
    TrackedAgent.from_dict a.to_dict = a := by
  have hcomp : AgentReview.from_dict ∘ AgentReview.to_dict = id :=
    funext review_roundtrip
  cases a with
  | mk agent_id agent_type started_at ended_at transcript_path reviews =>
    simp [TrackedAgent.from_dict, TrackedAgent.to_dict, List.map_map, hcomp]

theorem session_roundtrip (s : Session) :
    Session.from_dict s.to_dict = s := by
  have hcomp :
      ((fun p : String × TrackedAgentDoc => (p.1, TrackedAgent.from_dict p.2)) ∘
        fun p : String × TrackedAgent => (p.1, p.2.to_dict)) = id := by
    funext p
    cases p with
    | mk k a => simp [agent_roundtrip]
  cases s with
  | mk session_id started_at transcript_path git_branch git_commit agents =>
    simp [Session.from_dict, Session.to_dict, List.map_map, hcomp]

theorem load_session_save_session (st : StorageState) (s : Session) :
    load_session (save_session st s) s.session_id = some s := by
  simp [load_session, save_session, dictGet_dictInsert_self, session_roundtrip]

/-- Sessions written by the store live under their own session id; the store
maintains this because save_session keys the document by session.session_id. -/
def well_keyed_at (st : StorageState) (sid : String) : Prop :=
  ∀ s, load_session st sid = some s → s.session_id = sid

theorem get_or_create_session_id (st : StorageState) (sid tp : String)
    (gb gc : Option String) (n : String) (hwf : well_keyed_at st sid) :
    (get_or_create_session st sid tp gb gc n).session_id = sid := by
  unfold get_or_create_session
  cases hld : load_session st sid with
  | none => rfl
  | some s => exact hwf s hld

theorem add_agent_session_id (s : Session) (aid ty n : String) :
    (s.add_agent aid ty n).1.session_id = s.session_id := by
  unfold Session.add_agent
  cases h : dictGet aid s.agents with
  | some a => rfl
  | none => rfl

theorem add_agent_mem (s : Session) (aid ty n : String) :
    ∃ a, dictGet aid (s.add_agent aid ty n).1.agents = some a := by
  unfold Session.add_agent
  cases h : dictGet aid s.agents with
  | some a => exact ⟨a, h⟩
  | none => exact ⟨_, dictGet_dictInsert_self aid _ s.agents⟩

theorem add_agent_existing (s : Session) (aid ty n : String) (a : TrackedAgent)
    (h : dictGet aid s.agents = some a) : s.add_agent aid ty n = (s, a) := by
  unfold Session.add_agent
  rw [h]

theorem track_agent_start_existing (st : StorageState) (sid aid ty tp : String)
    (gb gc : Option String) (n : String) (s : Session) (a : TrackedAgent)
    (hld : load_session st sid = some s) (hag : dictGet aid s.agents = some a) :
    track_agent_start st sid aid ty tp gb gc n = (save_session st s, s) := by
  unfold track_agent_start get_or_create_session
  rw [hld]
  show (save_session st (s.add_agent aid ty n).1, (s.add_agent aid ty n).1) =
    (save_session st s, s)
  rw [add_agent_existing s aid ty n a hag]

theorem track_agent_start_fst (st : StorageState) (sid aid ty tp : String)
    (gb gc : Option String) (n : String) :
    (track_agent_start st sid aid ty tp gb gc n).1 =
      save_session st (track_agent_start st sid aid ty tp gb gc n).2 := rfl

theorem track_agent_start_snd_session_id (st : StorageState)
    (sid aid ty tp : String) (gb gc : Option String) (n : String)
    (hwf : well_keyed_at st sid) :
    (track_agent_start st sid aid ty tp gb gc n).2.session_id = sid := by
  show ((get_or_create_session st sid tp gb gc n).add_agent aid ty n).1.session_id = sid
  rw [add_agent_session_id, get_or_create_session_id st sid tp gb gc n hwf]

theorem track_agent_start_snd_mem (st : StorageState) (sid aid ty tp : String)
    (gb gc : Option String) (n : String) :
    ∃ a, dictGet aid (track_agent_start st sid aid ty tp gb gc n).2.agents = some a := by
  show ∃ a, dictGet aid ((get_or_create_session st sid tp gb gc n).add_agent aid ty n).1.agents = some a
  exact add_agent_mem _ aid ty n

/-!  ## Claims  -/

/-- Claim C6: round-trip of session state.  Serializing any Session to its
document form with to_dict and reloading it with from_dict reproduces an
equal Session: every field of the session, of every TrackedAgent and of
every AgentReview is reproduced. -/
theorem C6_session_round_trip (s : Session) :
    Session.from_dict s.to_dict = s :=
  session_roundtrip s

/-- Claim C10: implicit default-allow on a missing decision field.  When the
reviewer's stdout parses as a JSON object that lacks the passed key, the
ReviewResult returned by ReviewerService.review has passed = true, and its
feedback is the feedback field of the object defaulted to the empty string. -/
theorem C10_default_allow_on_missing_decision (files : List String)
    (t : Int) (d : ReviewResultDoc) (s e : String) (rc : Int)
    (hf : files ≠ []) (hp : d.passed = none) :
    (ReviewerService.review files true t
      (SubprocessOutcome.completed (some d) s e rc)).passed = true ∧
    (ReviewerService.review files true t
      (SubprocessOutcome.completed (some d) s e rc)).feedback = d.feedback.getD "" := by
  simp [ReviewerService.review, hf, ReviewResult.from_dict, hp]

theorem C10_default_allow_on_missing_decision_witness :
    (ReviewerService.review ["app.php"] true 90
      (SubprocessOutcome.completed
        (some { passed := none, feedback := some "looks fine",
                input_tokens := none, output_tokens := none,
                total_tokens := none, total_cost_usd := none })
        "" "" 0)).passed = true ∧
    (ReviewerService.review ["app.php"] true 90
      (SubprocessOutcome.completed
        (some { passed := none, feedback := some "looks fine",
                input_tokens := none, output_tokens := none,
                total_tokens := none, total_cost_usd := none })
        "" "" 0)).feedback = "looks fine" :=
  C10_default_allow_on_missing_decision ["app.php"] 90
    { passed := none, feedback := some "looks fine", input_tokens := none,
      output_tokens := none, total_tokens := none, total_cost_usd := none }
    "" "" 0 (by decide) rfl

/-- Claim C5 counterexample: a review invocation whose reviewer output fails
to parse as JSON but whose process exit code is nonzero returns
passed = false (a block), contradicting the claim that every such failure
resolves to allow. -/
theorem C5_counterexample :
    (ReviewerService.review ["app.php"] true 90
      (SubprocessOutcome.completed none "not json" "lint crashed" 1)).passed = false := by
  decide

/-- Claim C5 as amended: a reviewer crash (raised exception) or timeout
resolves to passed = true with the failure reason recorded as feedback text;
output that fails to parse as JSON resolves to passed = true (with empty
feedback) only when the exit code is zero, and to passed = false with
stderr/stdout as feedback when the exit code is nonzero. -/
theorem C5_amended_failure_containment (files : List String) (t : Int)
    (hf : files ≠ []) :
    (ReviewerService.review files true t SubprocessOutcome.timeout =
      ReviewResult.error_result ("Review timed out after " ++ toString t ++ "s"))
    ∧ (∀ m, ReviewerService.review files true t (SubprocessOutcome.exn m) =
        ReviewResult.error_result m)
    ∧ (∀ m, (ReviewResult.error_result m).passed = true)
    ∧ (∀ s e, (ReviewerService.review files true t
        (SubprocessOutcome.completed none s e 0)).passed = true)
    ∧ (∀ s e rc, rc ≠ 0 → (ReviewerService.review files true t
        (SubprocessOutcome.completed none s e rc)).passed = false) := by
  refine ⟨?_, ?_, ?_, ?_, ?_⟩
  · simp [ReviewerService.review, hf]
  · intro m
    simp [ReviewerService.review, hf]
  · intro m
    rfl
  · intro s e
    simp [ReviewerService.review, hf]
  · intro s e rc hrc
    simp [ReviewerService.review, hf, hrc]

theorem C5_amended_failure_containment_witness :
    (ReviewerService.review ["f.php"] true 90 SubprocessOutcome.timeout).passed = true ∧
    (ReviewerService.review ["f.php"] true 90 (SubprocessOutcome.exn "boom")).passed = true ∧
    (ReviewerService.review ["f.php"] true 90
      (SubprocessOutcome.completed none "x" "y" 0)).passed = true ∧
    (ReviewerService.review ["f.php"] true 90
      (SubprocessOutcome.completed none "x" "y" 2)).passed = false := by
  have h := C5_amended_failure_containment ["f.php"] 90 (by decide)
  exact ⟨by rw [h.1]; rfl, by rw [h.2.1 "boom"]; rfl, h.2.2.2.1 "x" "y",
    h.2.2.2.2 "x" "y" 2 (by decide)⟩

/-- Demonstration environment used by concrete counterexamples. -/
def demoEnv : HookEnv :=
  { config :=
      { agents_to_review := ["backend-engineer"]
        settings := { skip_if_no_file_changes := true, max_review_cycles := 3 } }
    git_branch := none
    git_commit := none
    fs_exists := fun _ => false
    entries_at := fun _ => []
    reviewer_tool_exists := true
    reviewer_timeout_seconds := 90
    reviewer_outcome := SubprocessOutcome.timeout
    agent_dir_found := true
    t_stop := "t1"
    t_review_start := "t2"
    t_review_end := "t3" }

/-- Claim C8 counterexample: stdin that fails to parse as JSON makes main
return exit code 1, and stdin that parses as JSON but is not a well-typed
hook object (a JSON array, or a non-string transcript_path) kills the
process with an uncaught exception, also exiting with status 1 — in neither
case is the exit code the success code 0, so the exit code is not the
success code for every input to the hook process. -/
theorem C8_counterexample :
    ((main_exit demoEnv [] StdinOutcome.not_json).1 = 1 ∧ (1 : Int) ≠ 0)
    ∧ (main_exit demoEnv [] StdinOutcome.mistyped).1 = 1
    ∧ (main_exit demoEnv [] StdinOutcome.mistyped).2.1 = none := by
  exact ⟨⟨rfl, by decide⟩, rfl, rfl⟩

/-- Claim C8 as amended: the process exit code is the success code 0 exactly
for those inputs on which the hook's input parse succeeds — stdin that
parses as a JSON object whose consumed fields are well-typed, so that
HookInput.from_dict succeeds — and for those inputs a block decision is
communicated only via the structured payload, never via the exit status.
Stdin that fails to parse as JSON exits with code 1 before the hook logic
runs, with no payload; stdin that parses as JSON but makes
HookInput.from_dict raise (a JSON array, a non-string path field) dies with
an uncaught exception, exiting with status 1 and no payload. -/
theorem C8_amended_exit_code (env : HookEnv) (st : StorageState)
    (raw : RawHookInput) :
    (main_exit env st (StdinOutcome.parsed raw)).1 = 0
    ∧ (main_exit env st StdinOutcome.not_json).1 = 1
    ∧ (main_exit env st StdinOutcome.not_json).2.1 = none
    ∧ (main_exit env st StdinOutcome.mistyped).1 = 1
    ∧ (main_exit env st StdinOutcome.mistyped).2.1 = none := by
  exact ⟨rfl, rfl, rfl, rfl, rfl⟩

/-- Claim C2: idempotent agent tracking.  First part: when the agent id is
already present in the stored session, track_agent_start returns that session
unchanged (so the agent's reviews, agent_type, started_at and ended_at are
exactly what they were) and merely re-persists it.  Second part: a second
track_agent_start for the same agent returns the same session value as the
first call, so the agent record after start-then-start equals the result of
the first call. -/
theorem C2_idempotent_agent_tracking (st : StorageState) (sid aid : String)
    (hwf : well_keyed_at st sid) :
    (∀ (s : Session) (a : TrackedAgent) (ty tp : String) (gb gc : Option String) (n : String),
      load_session st sid = some s → dictGet aid s.agents = some a →
      track_agent_start st sid aid ty tp gb gc n = (save_session st s, s))
    ∧ (∀ (ty1 tp1 : String) (gb1 gc1 : Option String) (n1 : String)
        (ty2 tp2 : String) (gb2 gc2 : Option String) (n2 : String),
      (track_agent_start (track_agent_start st sid aid ty1 tp1 gb1 gc1 n1).1
        sid aid ty2 tp2 gb2 gc2 n2).2
        = (track_agent_start st sid aid ty1 tp1 gb1 gc1 n1).2) := by
  constructor
  · intro s a ty tp gb gc n hld hag
    exact track_agent_start_existing st sid aid ty tp gb gc n s a hld hag
  · intro ty1 tp1 gb1 gc1 n1 ty2 tp2 gb2 gc2 n2
    obtain ⟨a1, ha1⟩ := track_agent_start_snd_mem st sid aid ty1 tp1 gb1 gc1 n1
    have hload1 :
        load_session (track_agent_start st sid aid ty1 tp1 gb1 gc1 n1).1 sid =
          some (track_agent_start st sid aid ty1 tp1 gb1 gc1 n1).2 := by
      rw [track_agent_start_fst]
      have h := load_session_save_session st (track_agent_start st sid aid ty1 tp1 gb1 gc1 n1).2
      rwa [track_agent_start_snd_session_id st sid aid ty1 tp1 gb1 gc1 n1 hwf] at h
    rw [track_agent_start_existing _ sid aid ty2 tp2 gb2 gc2 n2 _ a1 hload1 ha1]

/-- Completed (blocked) review used by the concrete scenarios. -/
def demoReview : AgentReview :=
  { started_at := "2025-12-11T09:09:36"
    ended_at := some "2025-12-11T09:10:16"
    decision := some false
    input_tokens := 10
    output_tokens := 5
    total_cost_usd := none }

/-- Tracked agent with one completed blocked review. -/
def demoAgent : TrackedAgent :=
  { agent_id := "agent-1"
    agent_type := "backend-engineer"
    started_at := "2025-12-11T09:05:14"
    ended_at := none
    transcript_path := none
    reviews := [demoReview] }

/-- Session holding demoAgent. -/
def demoSession : Session :=
  { session_id := "sess-1"
    started_at := "2025-12-11T09:00:00"
    transcript_path := ""
    git_branch := none
    git_commit := none
    agents := [("agent-1", demoAgent)] }

/-- Store with demoSession persisted under its own id. -/
def demoStore : StorageState := save_session [] demoSession

theorem demoStore_well_keyed : well_keyed_at demoStore "sess-1" := by
  intro s hs
  have h2 : load_session demoStore "sess-1" = some demoSession := by decide
  rw [h2] at hs
  cases hs
  rfl

theorem C2_idempotent_agent_tracking_witness :
    (track_agent_start
        (track_agent_start demoStore "sess-1" "agent-1" "backend-engineer" "" none none "t1").1
        "sess-1" "agent-1" "backend-engineer" "" none none "t2").2
      = (track_agent_start demoStore "sess-1" "agent-1" "backend-engineer" "" none none "t1").2 :=
  (C2_idempotent_agent_tracking demoStore "sess-1" "agent-1" demoStore_well_keyed).2
    "backend-engineer" "" none none "t1" "backend-engineer" "" none none "t2"

/-- Reviews currently recorded for an agent in the persisted store
(empty when session or agent is unknown). -/
def agent_reviews (st : StorageState) (sid aid : String) : List AgentReview :=
  match load_session st sid with
  | none => []
  | some s =>
    match dictGet aid s.agents with
    | none => []
    | some a => a.reviews

/-- Agent record after Session.end_agent marks it ended. -/
def agent_ended (a : TrackedAgent) (atp : Option String) (now : String) :
    TrackedAgent :=
  { a with ended_at := some now, transcript_path := atp }

/-- Session with one agent record replaced (dict assignment). -/
def session_with_agent (s : Session) (aid : String) (a2 : TrackedAgent) :
    Session :=
  { s with agents := dictInsert aid a2 s.agents }

theorem track_agent_stop_found (st : StorageState) (sid aid : String)
    (atp : Option String) (now : String) (s : Session) (a : TrackedAgent)
    (hld : load_session st sid = some s) (hag : dictGet aid s.agents = some a) :
    track_agent_stop st sid aid atp now =
      (save_session st (session_with_agent s aid (agent_ended a atp now)),
       some (session_with_agent s aid (agent_ended a atp now)),
       some (agent_ended a atp now)) := by
  simp only [track_agent_stop, Session.end_agent, hld, hag,
    session_with_agent, agent_ended]

theorem agent_reviews_save_stop (st : StorageState) (sid aid : String)
    (atp : Option String) (now : String) (s : Session) (a : TrackedAgent)
    (hld : load_session st sid = some s) (hwk : s.session_id = sid)
    (hag : dictGet aid s.agents = some a) :
    agent_reviews (save_session st (session_with_agent s aid (agent_ended a atp now))) sid aid =
      agent_reviews st sid aid := by
  have hload2 : load_session
      (save_session st (session_with_agent s aid (agent_ended a atp now))) sid =
      some (session_with_agent s aid (agent_ended a atp now)) := by
    have h := load_session_save_session st (session_with_agent s aid (agent_ended a atp now))
    rwa [show (session_with_agent s aid (agent_ended a atp now)).session_id = sid from hwk] at h
  simp only [agent_reviews, hload2]
  simp only [session_with_agent, dictGet_dictInsert_self, hld, hag, agent_ended]

/-- Claim C1: retry ceiling termination.  For every configuration, store and
stop event with the retry flag set, if the tracked agent's completed review
count has reached max_review_cycles, the handler resolves to allow regardless
of the reviewer outcome carried by the environment, and the agent's recorded
reviews are unchanged (no new AgentReview is created, the reviewer's verdict
never reaches the decision). -/
theorem C1_retry_ceiling_termination (env : HookEnv) (st : StorageState)
    (inp : HookInput) (aid : String) (s : Session) (a : TrackedAgent)
    (haid : inp.agent_id = some aid)
    (hld : load_session st inp.session_id = some s)
    (hwk : s.session_id = inp.session_id)
    (hag : dictGet aid s.agents = some a)
    (hretry : inp.stop_hook_active = true)
    (hcount : (a.completed_review_count : Int) ≥ env.config.settings.max_review_cycles) :
    ∃ reason st1,
      handle_stop env st inp = Except.ok (allowResult reason, st1) ∧
      (allowResult reason).should_block = false ∧
      agent_reviews st1 inp.session_id aid = agent_reviews st inp.session_id aid := by
  have hstop := track_agent_stop_found st inp.session_id aid
    inp.agent_transcript_path env.t_stop s a hld hag
  simp only [handle_stop, haid, hstop]
  have hpreserve := agent_reviews_save_stop st inp.session_id aid
    inp.agent_transcript_path env.t_stop s a hld hwk hag
  by_cases hty : env.config.should_review_agent
      (agent_ended a inp.agent_transcript_path env.t_stop).agent_type = true
  · have hcond : (inp.stop_hook_active = true) ∧
        (((agent_ended a inp.agent_transcript_path env.t_stop).completed_review_count : Int) ≥
          env.config.settings.max_review_cycles) := ⟨hretry, hcount⟩
    rw [if_neg (by simp [hty]), if_pos hcond]
    exact ⟨_, _, rfl, rfl, hpreserve⟩
  · rw [if_pos (by simp [hty])]
    exact ⟨_, _, rfl, rfl, hpreserve⟩

/-- Environment with max_review_cycles = 1, used by the C1 scenario. -/
def demoEnvC1 : HookEnv :=
  { demoEnv with config :=
      { agents_to_review := ["backend-engineer"]
        settings := { skip_if_no_file_changes := true, max_review_cycles := 1 } } }

/-- Retry stop event (stop_hook_active = true) for the demo agent. -/
def demoStopRetry : HookInput :=
  { session_id := "sess-1"
    transcript_path := none
    hook_event_name := "SubagentStop"
    agent_id := some "agent-1"
    agent_type := none
    agent_transcript_path := some "/tmp/agent.jsonl"
    stop_hook_active := true }

theorem C1_retry_ceiling_termination_witness :
    ∃ reason st1,
      handle_stop demoEnvC1 demoStore demoStopRetry = Except.ok (allowResult reason, st1) ∧
      (allowResult reason).should_block = false ∧
      agent_reviews st1 demoStopRetry.session_id "agent-1" =
        agent_reviews demoStore demoStopRetry.session_id "agent-1" :=
  C1_retry_ceiling_termination demoEnvC1 demoStore demoStopRetry "agent-1"
    demoSession demoAgent rfl (by decide) rfl (by decide) rfl (by decide)

/-- Claim C4: fail-open on missing transcript.  For every stop event for a
tracked, reviewable agent whose agent_transcript_path is absent or names a
file that does not exist, the handler resolves to allow (no block payload)
and the agent's recorded reviews are unchanged (no AgentReview is created or
appended). -/
theorem C4_fail_open_on_missing_transcript (env : HookEnv) (st : StorageState)
    (inp : HookInput) (aid : String) (s : Session) (a : TrackedAgent)
    (haid : inp.agent_id = some aid)
    (hld : load_session st inp.session_id = some s)
    (hwk : s.session_id = inp.session_id)
    (hag : dictGet aid s.agents = some a)
    (hty : env.config.should_review_agent a.agent_type = true)
    (htp : inp.agent_transcript_path = none ∨
      ∃ p, inp.agent_transcript_path = some p ∧ env.fs_exists p = false) :
    ∃ reason st1,
      handle_stop env st inp = Except.ok (allowResult reason, st1) ∧
      (allowResult reason).should_block = false ∧
      agent_reviews st1 inp.session_id aid = agent_reviews st inp.session_id aid := by
  have hstop := track_agent_stop_found st inp.session_id aid
    inp.agent_transcript_path env.t_stop s a hld hag
  simp only [handle_stop, haid, hstop]
  have hty2 : env.config.should_review_agent
      (agent_ended a inp.agent_transcript_path env.t_stop).agent_type = true := hty
  rw [if_neg (by simp [hty2])]
  have hpreserve := agent_reviews_save_stop st inp.session_id aid
    inp.agent_transcript_path env.t_stop s a hld hwk hag
  by_cases hc : (inp.stop_hook_active = true ∧
      ((agent_ended a inp.agent_transcript_path env.t_stop).completed_review_count : Int) ≥
        env.config.settings.max_review_cycles)
  · rw [if_pos hc]
    exact ⟨_, _, rfl, rfl, hpreserve⟩
  · rw [if_neg hc]
    rcases htp with h0 | ⟨p, hp, hfs⟩
    · rw [h0] at hpreserve
      rw [h0]
      exact ⟨_, _, rfl, rfl, hpreserve⟩
    · rw [hp] at hpreserve
      rw [hp]
      refine ⟨"Agent transcript not found",
        save_session st (session_with_agent s aid (agent_ended a (some p) env.t_stop)),
        ?_, rfl, hpreserve⟩
      simp [hfs]

/-- Plain (non-retry) stop event pointing at a transcript path that does not
exist on the demo file system. -/
def demoStopMissing : HookInput :=
  { session_id := "sess-1"
    transcript_path := none
    hook_event_name := "SubagentStop"
    agent_id := some "agent-1"
    agent_type := none
    agent_transcript_path := some "/tmp/missing.jsonl"
    stop_hook_active := false }

theorem C4_fail_open_on_missing_transcript_witness :
    ∃ reason st1,
      handle_stop demoEnv demoStore demoStopMissing = Except.ok (allowResult reason, st1) ∧
      (allowResult reason).should_block = false ∧
      agent_reviews st1 demoStopMissing.session_id "agent-1" =
        agent_reviews demoStore demoStopMissing.session_id "agent-1" :=
  C4_fail_open_on_missing_transcript demoEnv demoStore demoStopMissing "agent-1"
    demoSession demoAgent rfl (by decide) rfl (by decide) (by decide)
    (Or.inr ⟨"/tmp/missing.jsonl", rfl, rfl⟩)

/-!  ## Parser lemmas  -/

theorem aux_cons_none (tc : ToolCall) (rest : List ToolCall) (seen : List String)
    (h : tc.file_path = none) :
    extract_file_changes_aux (tc :: rest) seen = extract_file_changes_aux rest seen := by
  simp only [extract_file_changes_aux, h]

theorem aux_cons_empty (tc : ToolCall) (rest : List ToolCall) (seen : List String)
    (p : String) (h : tc.file_path = some p) (h0 : p = "") :
    extract_file_changes_aux (tc :: rest) seen = extract_file_changes_aux rest seen := by
  simp only [extract_file_changes_aux, h, h0, if_pos]

theorem aux_cons_seen (tc : ToolCall) (rest : List ToolCall) (seen : List String)
    (p : String) (h : tc.file_path = some p) (h0 : ¬ p = "")
    (hs : seen.contains p = true) :
    extract_file_changes_aux (tc :: rest) seen = extract_file_changes_aux rest seen := by
  simp only [extract_file_changes_aux, h]
  rw [if_neg h0, if_pos hs]

theorem aux_cons_new (tc : ToolCall) (rest : List ToolCall) (seen : List String)
    (p : String) (h : tc.file_path = some p) (h0 : ¬ p = "")
    (hs : seen.contains p = false) :
    extract_file_changes_aux (tc :: rest) seen =
      { path := p, action := determine_action tc.name, tool_name := tc.name,
        tool_call_id := tc.id, tool_input := tc.input } ::
        extract_file_changes_aux rest (p :: seen) := by
  simp only [extract_file_changes_aux, h]
  rw [if_neg h0, if_neg (by simpa using hs)]

theorem extract_aux_mem (calls : List ToolCall) :
    ∀ (seen : List String) (fc : FileChange),
      fc ∈ extract_file_changes_aux calls seen →
      fc.path ≠ "" ∧ seen.contains fc.path = false := by
  induction calls with
  | nil =>
    intro seen fc hfc
    simp [extract_file_changes_aux] at hfc
  | cons tc rest ih =>
    intro seen fc hfc
    cases hpath : tc.file_path with
    | none =>
      rw [aux_cons_none tc rest seen hpath] at hfc
      exact ih seen fc hfc
    | some p =>
      by_cases h0 : p = ""
      · rw [aux_cons_empty tc rest seen p hpath h0] at hfc
        exact ih seen fc hfc
      · cases hs : seen.contains p with
        | true =>
          rw [aux_cons_seen tc rest seen p hpath h0 hs] at hfc
          exact ih seen fc hfc
        | false =>
          rw [aux_cons_new tc rest seen p hpath h0 hs] at hfc
          rcases List.mem_cons.mp hfc with h | h
          · subst h
            exact ⟨h0, hs⟩
          · have h2 := ih (p :: seen) fc h
            refine ⟨h2.1, ?_⟩
            have h3 := h2.2
            simp only [List.contains_cons, Bool.or_eq_false_iff] at h3
            exact h3.2

theorem extract_aux_pairwise (calls : List ToolCall) :
    ∀ seen : List String,
      (extract_file_changes_aux calls seen).Pairwise (fun x y => x.path ≠ y.path) := by
  induction calls with
  | nil =>
    intro seen
    simp [extract_file_changes_aux]
  | cons tc rest ih =>
    intro seen
    cases hpath : tc.file_path with
    | none =>
      rw [aux_cons_none tc rest seen hpath]
      exact ih seen
    | some p =>
      by_cases h0 : p = ""
      · rw [aux_cons_empty tc rest seen p hpath h0]
        exact ih seen
      · cases hs : seen.contains p with
        | true =>
          rw [aux_cons_seen tc rest seen p hpath h0 hs]
          exact ih seen
        | false =>
          rw [aux_cons_new tc rest seen p hpath h0 hs]
          refine List.Pairwise.cons ?_ (ih (p :: seen))
          intro fc hfc heq
          have h2 := (extract_aux_mem rest (p :: seen) fc hfc).2
          rw [← heq] at h2
          simp [List.contains_cons] at h2

theorem extract_aux_first (calls : List ToolCall) :
    ∀ (seen : List String) (fc : FileChange),
      fc ∈ extract_file_changes_aux calls seen →
      ∃ tc, calls.find? (fun c => c.file_path == some fc.path) = some tc ∧
        fc.action = determine_action tc.name ∧ fc.tool_name = tc.name ∧
        fc.tool_call_id = tc.id ∧ fc.tool_input = tc.input := by
  induction calls with
  | nil =>
    intro seen fc hfc
    simp [extract_file_changes_aux] at hfc
  | cons tc rest ih =>
    intro seen fc hfc
    cases hpath : tc.file_path with
    | none =>
      rw [aux_cons_none tc rest seen hpath] at hfc
      obtain ⟨tc2, htc2, hrest⟩ := ih seen fc hfc
      refine ⟨tc2, ?_, hrest⟩
      rw [List.find?_cons_of_neg, htc2]
      simp [hpath]
    | some p =>
      by_cases h0 : p = ""
      · rw [aux_cons_empty tc rest seen p hpath h0] at hfc
        have hne : fc.path ≠ "" := (extract_aux_mem rest seen fc hfc).1
        obtain ⟨tc2, htc2, hrest⟩ := ih seen fc hfc
        refine ⟨tc2, ?_, hrest⟩
        rw [List.find?_cons_of_neg, htc2]
        subst h0
        simp [hpath]
        intro heq
        exact hne heq.symm
      · cases hs : seen.contains p with
        | true =>
          rw [aux_cons_seen tc rest seen p hpath h0 hs] at hfc
          have hmem := (extract_aux_mem rest seen fc hfc).2
          obtain ⟨tc2, htc2, hrest⟩ := ih seen fc hfc
          refine ⟨tc2, ?_, hrest⟩
          rw [List.find?_cons_of_neg, htc2]
          simp [hpath]
          intro heq
          rw [heq] at hs
          rw [hmem] at hs
          cases hs
        | false =>
          rw [aux_cons_new tc rest seen p hpath h0 hs] at hfc
          rcases List.mem_cons.mp hfc with h | h
          · subst h
            refine ⟨tc, ?_, rfl, rfl, rfl, rfl⟩
            rw [List.find?_cons_of_pos]
            simp [hpath]
          · have hmem := (extract_aux_mem rest (p :: seen) fc h).2
            obtain ⟨tc2, htc2, hrest⟩ := ih (p :: seen) fc h
            refine ⟨tc2, ?_, hrest⟩
            rw [List.find?_cons_of_neg, htc2]
            simp [hpath]
            intro heq
            rw [← heq] at hmem
            simp [List.contains_cons] at hmem

/-- Claim C3: deduplication by path with first-occurrence-wins.  The
extracted file_changes list has pairwise distinct paths (at most one
FileChange per distinct path), and every extracted FileChange takes its
action, tool name, tool call id and tool input from the first file-modifying
tool call in entry order whose extracted path equals that path — so later
tool calls on the same path, under any tool name, do not modify the record. -/
theorem C3_dedup_by_path_first_wins (entries : List TranscriptEntry) :
    (extract_file_changes entries).Pairwise (fun x y => x.path ≠ y.path)
    ∧ ∀ fc ∈ extract_file_changes entries,
      ∃ tc, (entries.flatMap TranscriptEntry.file_modifying_tool_calls).find?
          (fun c => c.file_path == some fc.path) = some tc ∧
        fc.action = determine_action tc.name ∧ fc.tool_name = tc.name ∧
        fc.tool_call_id = tc.id ∧ fc.tool_input = tc.input :=
  ⟨extract_aux_pairwise _ [],
   fun fc hfc => extract_aux_first _ [] fc hfc⟩

/-- First demo tool call: Write to app/Foo.php. -/
def demoWrite : ToolCall :=
  { id := "t1", name := "Write"
    input := [("file_path", "app/Foo.php"), ("content", "x")] }

/-- Second demo tool call: Edit to the same path. -/
def demoEdit : ToolCall :=
  { id := "t2", name := "Edit", input := [("file_path", "app/Foo.php")] }

/-- Third demo tool call: a Serena symbol edit to the same path. -/
def demoSerena : ToolCall :=
  { id := "t3", name := "mcp__serena__replace_symbol_body"
    input := [("relative_path", "app/Foo.php")] }

/-- Demo transcript: the same path touched three times under different
file-modifying tool names. -/
def demoEntries : List TranscriptEntry :=
  [{ uuid := "u1", parent_uuid := none, entry_type := "assistant"
     tool_calls := [demoWrite] },
   { uuid := "u2", parent_uuid := some "u1", entry_type := "assistant"
     tool_calls := [demoEdit, demoSerena] }]

/-- FileChange recorded for the demo transcript: metadata of the first call. -/
def demoFileChange : FileChange :=
  { path := "app/Foo.php", action := FileChangeAction.CREATED
    tool_name := "Write", tool_call_id := "t1"
    tool_input := [("file_path", "app/Foo.php"), ("content", "x")] }

theorem C3_dedup_by_path_first_wins_witness :
    (extract_file_changes demoEntries).Pairwise (fun x y => x.path ≠ y.path)
    ∧ ∃ tc, (demoEntries.flatMap TranscriptEntry.file_modifying_tool_calls).find?
        (fun c => c.file_path == some demoFileChange.path) = some tc ∧
      demoFileChange.action = determine_action tc.name ∧
      demoFileChange.tool_name = tc.name ∧
      demoFileChange.tool_call_id = tc.id ∧
      demoFileChange.tool_input = tc.input := by
  have h := C3_dedup_by_path_first_wins demoEntries
  exact ⟨h.1, h.2 demoFileChange (by decide)⟩

theorem file_modifying_action (tc : ToolCall) (h : tc.is_file_modifying = true) :
    determine_action tc.name = FileChangeAction.CREATED ∨
      determine_action tc.name = FileChangeAction.EDITED := by
  unfold ToolCall.is_file_modifying FILE_MODIFYING_TOOLS at h
  simp at h
  rcases h with h | h | h | h | h | h | h
  all_goals rw [h]
  all_goals decide

theorem extract_aux_action (calls : List ToolCall)
    (hall : ∀ tc ∈ calls, tc.is_file_modifying = true) :
    ∀ (seen : List String) (fc : FileChange),
      fc ∈ extract_file_changes_aux calls seen →
      fc.action = FileChangeAction.CREATED ∨ fc.action = FileChangeAction.EDITED := by
  induction calls with
  | nil =>
    intro seen fc hfc
    simp [extract_file_changes_aux] at hfc
  | cons tc rest ih =>
    intro seen fc hfc
    have htc := hall tc (List.mem_cons_self tc rest)
    have hrest := fun t ht => hall t (List.mem_cons_of_mem tc ht)
    cases hpath : tc.file_path with
    | none =>
      rw [aux_cons_none tc rest seen hpath] at hfc
      exact ih hrest seen fc hfc
    | some p =>
      by_cases h0 : p = ""
      · rw [aux_cons_empty tc rest seen p hpath h0] at hfc
        exact ih hrest seen fc hfc
      · cases hs : seen.contains p with
        | true =>
          rw [aux_cons_seen tc rest seen p hpath h0 hs] at hfc
          exact ih hrest seen fc hfc
        | false =>
          rw [aux_cons_new tc rest seen p hpath h0 hs] at hfc
          rcases List.mem_cons.mp hfc with h | h
          · subst h
            exact file_modifying_action tc htc
          · exact ih hrest (p :: seen) fc h

/-- Claim C9: every FileChange produced by transcript parsing has action
CREATED or EDITED; the UNKNOWN action is unreachable at the parser's output,
because action classification is only applied to tool calls in the fixed
file-modifying set and every name in that set maps to CREATED or EDITED. -/
theorem C9_no_unknown_action (entries : List TranscriptEntry) (fc : FileChange)
    (hfc : fc ∈ extract_file_changes entries) :
    fc.action = FileChangeAction.CREATED ∨ fc.action = FileChangeAction.EDITED := by
  refine extract_aux_action _ ?_ [] fc hfc
  intro tc htc
  rw [List.mem_flatMap] at htc
  obtain ⟨e, _, htc2⟩ := htc
  exact (List.mem_filter.mp htc2).2

theorem C9_no_unknown_action_witness :
    demoFileChange.action = FileChangeAction.CREATED ∨
      demoFileChange.action = FileChangeAction.EDITED :=
  C9_no_unknown_action demoEntries demoFileChange (by decide)

/-!  ## Review lifecycle operations (claim C7)  -/

/-- One storage-level review operation: SessionStorageService.start_agent_review
or SessionStorageService.end_agent_review. -/
inductive ReviewOp where
  | start (session_id agent_id now : String)
  | finish (session_id agent_id : String) (passed : Bool)
      (input_tokens output_tokens : Int) (total_cost_usd : Option Rat) (now : String)
deriving Repr, DecidableEq

/-- Apply one review operation to the store. -/
def apply_review_op (st : StorageState) : ReviewOp → StorageState
  | ReviewOp.start sid aid now => (start_agent_review st sid aid now).1
  | ReviewOp.finish sid aid passed it ot cost now =>
      (end_agent_review st sid aid passed it ot cost now).1

/-- Apply a sequence of review operations in order. -/
def apply_review_ops (st : StorageState) : List ReviewOp → StorageState
  | [] => st
  | op :: ops => apply_review_ops (apply_review_op st op) ops

/-- Number of in-progress reviews (ended_at = null) of an agent. -/
def in_progress_count (a : TrackedAgent) : Nat :=
  (a.reviews.filter AgentReview.is_in_progress).length

/-- Every agent of the session has at most one in-progress review. -/
def session_inv (s : Session) : Prop :=
  ∀ p ∈ s.agents, in_progress_count p.2 ≤ 1

/-- Every session document in the store satisfies session_inv. -/
def store_inv (st : StorageState) : Prop :=
  ∀ q ∈ st, session_inv (Session.from_dict q.2)

instance instDecSessionInv (s : Session) : Decidable (session_inv s) := by
  unfold session_inv
  infer_instance

instance instDecStoreInv (st : StorageState) : Decidable (store_inv st) := by
  unfold store_inv
  infer_instance

/-- In-progress review count of one agent as stored (0 when unknown). -/
def agent_in_progress (st : StorageState) (sid aid : String) : Nat :=
  match load_session st sid with
  | none => 0
  | some s =>
    match dictGet aid s.agents with
    | none => 0
    | some a => in_progress_count a

/-- Operation sequences following the orchestrator's discipline: a review is
started only when the target agent has no in-progress review (each start is
ended before the next start). -/
inductive GuardedOps : StorageState → List ReviewOp → Prop where
  | nil (st : StorageState) : GuardedOps st []
  | start (st : StorageState) (sid aid now : String) (ops : List ReviewOp)
      (h : agent_in_progress st sid aid = 0)
      (hrest : GuardedOps (apply_review_op st (ReviewOp.start sid aid now)) ops) :
      GuardedOps st (ReviewOp.start sid aid now :: ops)
  | finish (st : StorageState) (sid aid : String) (passed : Bool)
      (it ot : Int) (cost : Option Rat) (now : String) (ops : List ReviewOp)
      (hrest : GuardedOps
        (apply_review_op st (ReviewOp.finish sid aid passed it ot cost now)) ops) :
      GuardedOps st (ReviewOp.finish sid aid passed it ot cost now :: ops)

theorem in_progress_start_review (a : TrackedAgent) (now : String) :
    in_progress_count (a.start_review now).1 = in_progress_count a + 1 := by
  simp [TrackedAgent.start_review, in_progress_count, List.filter_append,
    AgentReview.is_in_progress]

theorem endLastReview_count (upd : AgentReview → AgentReview)
    (hupd : ∀ r, AgentReview.is_in_progress (upd r) = false) :
    ∀ l : List AgentReview,
      ((endLastReview upd l).1.filter AgentReview.is_in_progress).length ≤
        (l.filter AgentReview.is_in_progress).length := by
  intro l
  induction l with
  | nil => simp [endLastReview]
  | cons r rest ih =>
    cases rest with
    | nil => simp [endLastReview, hupd r]
    | cons s rest2 =>
      simp only [endLastReview]
      cases hr : AgentReview.is_in_progress r
      · simpa [List.filter_cons, hr] using ih
      · simpa [List.filter_cons, hr] using Nat.succ_le_succ ih

theorem end_review_count (a : TrackedAgent) (passed : Bool) (it ot : Int)
    (cost : Option Rat) (now : String) :
    in_progress_count (a.end_review passed it ot cost now).1 ≤
      in_progress_count a := by
  unfold TrackedAgent.end_review in_progress_count
  exact endLastReview_count
    (fun r =>
      { r with
        ended_at := some now
        decision := some passed
        input_tokens := it
        output_tokens := ot
        total_cost_usd := cost })
    (fun r => rfl) a.reviews

theorem load_session_inv {st : StorageState} {sid : String} {s : Session}
    (hst : store_inv st) (hld : load_session st sid = some s) : session_inv s := by
  unfold load_session at hld
  cases hdg : dictGet sid st with
  | none =>
    rw [hdg] at hld
    cases hld
  | some doc =>
    rw [hdg] at hld
    have hld2 : Session.from_dict doc = s := by simpa using hld
    exact hld2 ▸ hst (sid, doc) (dictGet_mem hdg)

theorem store_inv_save {st : StorageState} {s : Session}
    (hst : store_inv st) (hs : session_inv s) : store_inv (save_session st s) := by
  unfold store_inv at hst ⊢
  intro q hq
  rcases mem_dictInsert hq with h | h
  · subst h
    show session_inv (Session.from_dict s.to_dict)
    rw [session_roundtrip]
    exact hs
  · exact hst q h

theorem session_inv_insert {s : Session} {aid : String} {a2 : TrackedAgent}
    (hs : session_inv s) (ha2 : in_progress_count a2 ≤ 1) :
    session_inv { s with agents := dictInsert aid a2 s.agents } := by
  unfold session_inv at hs ⊢
  intro p hp
  rcases mem_dictInsert hp with h | h
  · subst h
    exact ha2
  · exact hs p h

theorem start_op_preserves (st : StorageState) (sid aid now : String)
    (hst : store_inv st) (hz : agent_in_progress st sid aid = 0) :
    store_inv (apply_review_op st (ReviewOp.start sid aid now)) := by
  simp only [apply_review_op, start_agent_review]
  cases hld : load_session st sid with
  | none => exact hst
  | some s =>
    simp only [Session.start_agent_review]
    cases hag : dictGet aid s.agents with
    | none => exact hst
    | some a =>
      apply store_inv_save hst
      apply session_inv_insert (load_session_inv hst hld)
      have hz2 : in_progress_count a = 0 := by
        simp only [agent_in_progress, hld, hag] at hz
        exact hz
      rw [in_progress_start_review, hz2]

theorem finish_op_preserves (st : StorageState) (sid aid : String)
    (passed : Bool) (it ot : Int) (cost : Option Rat) (now : String)
    (hst : store_inv st) :
    store_inv (apply_review_op st (ReviewOp.finish sid aid passed it ot cost now)) := by
  simp only [apply_review_op, end_agent_review]
  cases hld : load_session st sid with
  | none => exact hst
  | some s =>
    simp only [Session.end_agent_review]
    cases hag : dictGet aid s.agents with
    | none => exact hst
    | some a =>
      cases hp2 : (a.end_review passed it ot cost now).2 with
      | none => exact hst
      | some r =>
        apply store_inv_save hst
        apply session_inv_insert (load_session_inv hst hld)
        calc in_progress_count (a.end_review passed it ot cost now).1
            ≤ in_progress_count a := end_review_count a passed it ot cost now
          _ ≤ 1 := load_session_inv hst hld (aid, a) (dictGet_mem hag)

/-- Claim C7 counterexample: two consecutive start_agent_review calls (no
intervening end_agent_review) drive one agent to two in-progress reviews, so
the single-in-progress invariant is not preserved by every sequence of
start_agent_review and end_agent_review operations. -/
theorem C7_counterexample :
    store_inv demoStore ∧
    agent_in_progress
      (apply_review_ops demoStore
        [ReviewOp.start "sess-1" "agent-1" "t4",
         ReviewOp.start "sess-1" "agent-1" "t5"]) "sess-1" "agent-1" = 2 ∧
    ¬ store_inv
      (apply_review_ops demoStore
        [ReviewOp.start "sess-1" "agent-1" "t4",
         ReviewOp.start "sess-1" "agent-1" "t5"]) := by
  decide

/-- Claim C7 as amended: at most one in-progress review per agent holds in
every store state reachable by start_agent_review / end_agent_review
sequences following the orchestrator's discipline, namely that a review is
started only for an agent with no in-progress review (every started review is
ended before the next start); an unguarded second start creates a second
in-progress review, so the unrestricted claim fails. -/
theorem C7_amended_single_in_progress (st : StorageState) (ops : List ReviewOp)
    (hst : store_inv st) (hg : GuardedOps st ops) :
    store_inv (apply_review_ops st ops) := by
  revert hst
  induction hg with
  | nil st => exact fun hst => hst
  | start st sid aid now ops h hrest ih =>
    exact fun hst => ih (start_op_preserves st sid aid now hst h)
  | finish st sid aid passed it ot cost now ops hrest ih =>
    exact fun hst => ih (finish_op_preserves st sid aid passed it ot cost now hst)

/-- Guarded demo sequence: start, finish, start. -/
def c7GuardedOps : List ReviewOp :=
  [ReviewOp.start "sess-1" "agent-1" "t4",
   ReviewOp.finish "sess-1" "agent-1" false 7 3 none "t5",
   ReviewOp.start "sess-1" "agent-1" "t6"]

theorem C7_amended_single_in_progress_witness :
    store_inv (apply_review_ops demoStore c7GuardedOps) := by
  apply C7_amended_single_in_progress demoStore c7GuardedOps (by decide)
  refine GuardedOps.start _ _ _ _ _ (by decide) ?_
  refine GuardedOps.finish _ _ _ _ _ _ _ _ _ ?_
  refine GuardedOps.start _ _ _ _ _ (by decide) ?_
  exact GuardedOps.nil _

end SubAgentReviewer
